import Mathlib

/-!
Shallow embedding of the bracketed-label tokenizer `createLabel`
(`src/lib/factory-label.ts`, a fork of micromark's `factory-label`).

The tokenizer is a continuation-passing state machine: the caller feeds it
one input unit (character code) at a time; each state either consumes the
unit and names the next state, re-evaluates the same unit in another state,
or transfers control to the caller-supplied `ok` / `nok` continuation.
We embed it as a per-unit step function over an explicit state type, with
the two mutable closure variables (`size`, `balance`) threaded through as a
record, and the `effects.enter/consume/exit` side effects reified as an
event list.
-/

namespace FactoryLabel

/-- An input unit: a concrete character code (micromark uses negative
codes for virtual units such as line endings), or the end-of-input
sentinel (`Codes.EOF`, micromark's `null`). -/
inductive Code where
  | eof : Code
  | chr : Int → Code
deriving DecidableEq, Repr

/-- `Codes.openingSquareBracket` -/
def Codes.openingSquareBracket : Int := 91
/-- `Codes.backSlash` -/
def Codes.backSlash : Int := 92
/-- `Codes.closingSquareBracket` -/
def Codes.closingSquareBracket : Int := 93

/-- `markdownLineEnding` from `micromark-util-character`: true for the
virtual line-ending codes (carriage return −5, line feed −4, CRLF −3),
i.e. any code strictly below `codes.horizontalTab` (−2); false for `null`
(end of input). -/
def markdownLineEnding : Code → Bool
  | Code.eof => false
  | Code.chr n => decide (n < -2)

/-- The two mutable variables closed over by the state functions:
`let size = 0` and `let balance = 0`.  `balance` is an `Int` because the
JavaScript `balance--` / `++balance` updates can (transiently, in a
terminal step) drive it to −1 or 4. -/
structure Counters where
  size : Nat
  balance : Int
deriving DecidableEq, Repr

/-- One `effects` call: `enter(type)`, `consume(code)` or `exit(type)`. -/
inductive Event where
  | enter : String → Event
  | consume : Code → Event
  | exit : String → Event
deriving DecidableEq, Repr

/-- The scanner states a unit can be fed into (the states the machine can
be waiting in between units).  `atClosingBrace` is not here: the source
only ever calls it directly (`atClosingBrace(code)`), never returns it as
the next state. -/
inductive LState where
  | start
  | afterStart
  | atBreak
  | label
  | labelEscape
deriving DecidableEq, Repr

/-- Configuration fixed for one invocation: the three caller-supplied
token-type tags and the `disallowEol` flag. -/
structure LabelConfig where
  type : String
  markerType : String
  stringType : String
  disallowEol : Bool

/-- Outcome of feeding one unit: continue in a state with updated
counters, transfer to the success continuation `ok` (the unit was
consumed), transfer to the failure continuation `nok` carrying the
unconsumed unit, or the contract-violation `throw` in `start`.
Each outcome records the events emitted during the step; the terminal
outcomes also record the final counter values. -/
inductive StepResult where
  | cont : LState → Counters → List Event → StepResult
  | ok : Counters → List Event → StepResult
  | nok : Counters → Code → List Event → StepResult
  | err : StepResult
deriving DecidableEq, Repr

/-- Prepend events emitted before a tail call (`return otherState(code)`). -/
def StepResult.prependEvents (pre : List Event) : StepResult → StepResult
  | .cont s cs evs => .cont s cs (pre ++ evs)
  | .ok cs evs => .ok cs (pre ++ evs)
  | .nok cs c evs => .nok cs c (pre ++ evs)
  | .err => .err

/-- `atClosingBrace`: exit the content string, emit the closing marker
span around the consumed bracket, exit the label, return `ok`. -/
def atClosingBrace (cfg : LabelConfig) (cs : Counters) (c : Code) : StepResult :=
  .ok cs [Event.exit cfg.stringType, Event.enter cfg.markerType, Event.consume c,
          Event.exit cfg.markerType, Event.exit cfg.type]

/-- Lines 88–98 of `label` (everything after the EOF / line-ending /
size-ceiling hand-off guard).  This helper exists only to break the
`label` ↔ `atBreak` call cycle: `atBreak` calls `label(code)` only with a
unit that is not EOF, not a line ending, and with `size ≤ 999`, so on
those calls `label` and `labelBody` agree definitionally.
`++balance > 3` pre-increments; `!balance--` tests the old value and
post-decrements (also when the old value is 0). -/
def labelBody (cfg : LabelConfig) (cs : Counters) (c : Code) : StepResult :=
  if c = Code.chr Codes.openingSquareBracket then
    if cs.balance + 1 > 3 then
      .nok ⟨cs.size, cs.balance + 1⟩ c []
    else
      .cont .label ⟨cs.size, cs.balance + 1⟩ [Event.consume c]
  else if c = Code.chr Codes.closingSquareBracket then
    if cs.balance = 0 then
      StepResult.prependEvents [Event.exit "chunkText"]
        (atClosingBrace cfg ⟨cs.size, cs.balance - 1⟩ c)
    else
      .cont .label ⟨cs.size, cs.balance - 1⟩ [Event.consume c]
  else if c = Code.chr Codes.backSlash then
    .cont .labelEscape cs [Event.consume c]
  else
    .cont .label cs [Event.consume c]

/-- `atBreak`: fail on EOF or an exceeded size ceiling; a closing bracket
with zero balance terminates the label (`atClosingBrace`), with nonzero
balance it is decremented (`!balance--` evaluates to false and
post-decrements) and the bracket falls through into `label`; a line
ending fails when `disallowEol`, otherwise is consumed inside a
`lineEnding` span; anything else opens a `chunkText` span and falls into
`label` unconsumed. -/
def atBreak (cfg : LabelConfig) (cs : Counters) (c : Code) : StepResult :=
  if c = Code.eof ∨ cs.size > 999 then
    .nok cs c []
  else if c = Code.chr Codes.closingSquareBracket then
    if cs.balance = 0 then
      atClosingBrace cfg ⟨cs.size, cs.balance - 1⟩ c
    else
      StepResult.prependEvents [Event.enter "chunkText"]
        (labelBody cfg ⟨cs.size, cs.balance - 1⟩ c)
  else if markdownLineEnding c then
    if cfg.disallowEol then
      .nok cs c []
    else
      .cont .atBreak cs [Event.enter "lineEnding", Event.consume c, Event.exit "lineEnding"]
  else
    StepResult.prependEvents [Event.enter "chunkText"] (labelBody cfg cs c)

/-- `label`: on EOF, a line ending, or an exceeded size ceiling, close the
open `chunkText` span and hand the same unit back to `atBreak`; otherwise
proceed as in `labelBody`. -/
def label (cfg : LabelConfig) (cs : Counters) (c : Code) : StepResult :=
  if c = Code.eof ∨ markdownLineEnding c ∨ cs.size > 999 then
    StepResult.prependEvents [Event.exit "chunkText"] (atBreak cfg cs c)
  else
    labelBody cfg cs c

/-- `labelEscape`: an opening bracket, closing bracket or backslash after
the consumed backslash is an escapable character — consume it, increment
`size`, return to `label`; otherwise re-evaluate the unit in `label`. -/
def labelEscape (cfg : LabelConfig) (cs : Counters) (c : Code) : StepResult :=
  if c = Code.chr Codes.openingSquareBracket ∨ c = Code.chr Codes.backSlash ∨
      c = Code.chr Codes.closingSquareBracket then
    .cont .label ⟨cs.size + 1, cs.balance⟩ [Event.consume c]
  else
    label cfg cs c

/-- `afterStart`: a closing bracket means an empty label — emit the
closing marker span, exit the label span, return `ok`; otherwise enter
the content-string span and fall into `atBreak` unconsumed. -/
def afterStart (cfg : LabelConfig) (cs : Counters) (c : Code) : StepResult :=
  if c = Code.chr Codes.closingSquareBracket then
    .ok cs [Event.enter cfg.markerType, Event.consume c, Event.exit cfg.markerType,
            Event.exit cfg.type]
  else
    StepResult.prependEvents [Event.enter cfg.stringType] (atBreak cfg cs c)

/-- `start`: the unit must be the opening bracket (guaranteed by the
caller's lookahead; anything else throws).  Emits `enter(type)` and the
opening marker span, then waits in `afterStart`. -/
def start (cfg : LabelConfig) (cs : Counters) (c : Code) : StepResult :=
  if c = Code.chr Codes.openingSquareBracket then
    .cont .afterStart cs [Event.enter cfg.type, Event.enter cfg.markerType,
                          Event.consume c, Event.exit cfg.markerType]
  else
    .err

/-- Feed one unit to the state the machine is waiting in. -/
def step (cfg : LabelConfig) : LState → Counters → Code → StepResult
  | .start => start cfg
  | .afterStart => afterStart cfg
  | .atBreak => atBreak cfg
  | .label => label cfg
  | .labelEscape => labelEscape cfg

/-- Outcome of driving the machine over a whole input sequence:
success (`ok` continuation reached; the unfed remainder of the input is
what the continuation would receive next), failure (`nok` reached with
the unconsumed triggering unit), contract violation, or input exhausted
while still scanning. -/
inductive RunResult where
  | ok : Counters → List Event → List Code → RunResult
  | nok : Counters → Code → List Event → RunResult
  | err : List Event → RunResult
  | pending : LState → Counters → List Event → RunResult
deriving DecidableEq, Repr

/-- Drive the machine: feed units one at a time until a terminal
continuation is reached or the input list is exhausted. -/
def run (cfg : LabelConfig) : LState → Counters → List Code → List Event → RunResult
  | s, cs, [], acc => .pending s cs acc
  | s, cs, c :: rest, acc =>
    match step cfg s cs c with
    | .cont s' cs' evs => run cfg s' cs' rest (acc ++ evs)
    | .ok cs' evs => .ok cs' (acc ++ evs) rest
    | .nok cs' c' evs => .nok cs' c' (acc ++ evs)
    | .err => .err acc

/-- `createLabel`: one whole invocation, from `start` with
`size = 0`, `balance = 0`. -/
def createLabel (cfg : LabelConfig) (input : List Code) : RunResult :=
  run cfg .start ⟨0, 0⟩ input []

/-- The (state, counters) pairs the machine waits in between transitions:
the observation points of one invocation on the given input. -/
def traceStates (cfg : LabelConfig) : LState → Counters → List Code → List (LState × Counters)
  | s, cs, [] => [(s, cs)]
  | s, cs, c :: rest =>
    (s, cs) :: (match step cfg s cs c with
      | .cont s' cs' _ => traceStates cfg s' cs' rest
      | _ => [])

/-- Check an event list against a stack of currently-open span types
(innermost first): `enter` pushes, `exit` must match the top and pops,
`consume` leaves the stack alone.  Returns the remaining open stack, or
`none` on a mismatched or extra `exit`.  `checkSpans st evs = some []`
says `evs` is balanced and strictly nested over the initial stack `st`. -/
def checkSpans (st : List String) : List Event → Option (List String)
  | [] => some st
  | Event.enter t :: es => checkSpans (t :: st) es
  | Event.exit t :: es =>
    match st with
    | [] => none
    | t' :: st' => if t' = t then checkSpans st' es else none
  | Event.consume _ :: es => checkSpans st es

/-- A concrete configuration used for the concrete test inputs. -/
def cfg0 : LabelConfig := ⟨"label", "labelMarker", "labelString", false⟩

/-- `cfg0` with line endings disallowed. -/
def cfg1 : LabelConfig := ⟨"label", "labelMarker", "labelString", true⟩

/-- The span types open (innermost first) while the machine waits in a
given state. -/
def openStack (cfg : LabelConfig) : LState → List String
  | .start => []
  | .afterStart => [cfg.type]
  | .atBreak => [cfg.stringType, cfg.type]
  | .label => ["chunkText", cfg.stringType, cfg.type]
  | .labelEscape => ["chunkText", cfg.stringType, cfg.type]

/-- A property of the state-and-counters a step continues into; trivially
true of terminal steps. -/
def onCont (P : LState → Counters → Prop) : StepResult → Prop
  | .cont s cs _ => P s cs
  | _ => True

/-- The balance-counter invariant at observation points. -/
def balInv : LState → Counters → Prop := fun _ cs => 0 ≤ cs.balance ∧ cs.balance ≤ 3

/-- Span-discipline of one step's emitted events, relative to the stack of
spans open before the step: a continuing step must leave exactly the spans
of the new state open; a successful step must close everything. -/
def resultSpans (cfg : LabelConfig) (st : List String) : StepResult → Prop
  | .cont s' _ evs => checkSpans st evs = some (openStack cfg s')
  | .ok _ evs => checkSpans st evs = some []
  | .nok _ _ _ => True
  | .err => True

/-- Span-discipline of a FAILING step's emitted events, relative to the
stack of spans open before the step: a step that transfers to the failure
continuation leaves either the content-string and label spans open, or —
when it fails inside an open text chunk — the text-chunk span as well.
Trivially true of non-`nok` steps. -/
def nokSpans (cfg : LabelConfig) (st : List String) : StepResult → Prop
  | .nok _ _ evs =>
      checkSpans st evs = some [cfg.stringType, cfg.type] ∨
        checkSpans st evs = some ["chunkText", cfg.stringType, cfg.type]
  | _ => True

/-- An ordinary content unit: not end of input, not a line ending, and
none of the three structural characters (brackets, backslash). -/
def Ordinary (c : Code) : Prop :=
  c ≠ Code.eof ∧ markdownLineEnding c = false ∧
    c ≠ Code.chr Codes.openingSquareBracket ∧ c ≠ Code.chr Codes.backSlash ∧
    c ≠ Code.chr Codes.closingSquareBracket

instance (c : Code) : Decidable (Ordinary c) := by
  unfold Ordinary; infer_instance

/- ## Helper lemmas -/

theorem Counters.size_mk (n : Nat) (b : Int) : Counters.size ⟨n, b⟩ = n := rfl

theorem Counters.balance_mk (n : Nat) (b : Int) : Counters.balance ⟨n, b⟩ = b := rfl

attribute [simp] Counters.size_mk Counters.balance_mk

theorem checkSpans_append (e1 : List Event) : ∀ (st : List String) (e2 : List Event),
    checkSpans st (e1 ++ e2) = (checkSpans st e1).bind fun st' => checkSpans st' e2 := by
  induction e1 with
  | nil => intro st e2; simp [checkSpans]
  | cons e es ih =>
    intro st e2
    cases e with
    | enter t => simpa [checkSpans] using ih _ _
    | consume c => simpa [checkSpans] using ih _ _
    | exit t =>
      cases st with
      | nil => simp [checkSpans]
      | cons t' st' =>
        by_cases h : t' = t
        · simpa [checkSpans, h] using ih _ _
        · simp [checkSpans, h]

theorem onCont_prependEvents (P : LState → Counters → Prop) (pre : List Event)
    (r : StepResult) : onCont P (StepResult.prependEvents pre r) ↔ onCont P r := by
  cases r <;> exact Iff.rfl

theorem labelBody_balance (cfg : LabelConfig) (cs : Counters) (c : Code)
    (h0 : 0 ≤ cs.balance) (h3 : cs.balance ≤ 3) :
    onCont balInv (labelBody cfg cs c) := by
  unfold labelBody atClosingBrace
  split_ifs <;>
    simp only [onCont, balInv, StepResult.prependEvents, Counters.balance_mk] <;>
    omega

theorem atBreak_balance (cfg : LabelConfig) (cs : Counters) (c : Code)
    (h0 : 0 ≤ cs.balance) (h3 : cs.balance ≤ 3) :
    onCont balInv (atBreak cfg cs c) := by
  unfold atBreak
  split_ifs with h1 h2 h3' h4 h5
  · trivial
  · unfold atClosingBrace; trivial
  · rw [onCont_prependEvents]
    exact labelBody_balance cfg ⟨cs.size, cs.balance - 1⟩ c (by simp; omega) (by simp; omega)
  · trivial
  · exact ⟨h0, h3⟩
  · rw [onCont_prependEvents]
    exact labelBody_balance cfg cs c h0 h3

theorem label_balance (cfg : LabelConfig) (cs : Counters) (c : Code)
    (h0 : 0 ≤ cs.balance) (h3 : cs.balance ≤ 3) :
    onCont balInv (label cfg cs c) := by
  unfold label
  split_ifs with h1
  · rw [onCont_prependEvents]
    exact atBreak_balance cfg cs c h0 h3
  · exact labelBody_balance cfg cs c h0 h3

theorem step_balance (cfg : LabelConfig) (s : LState) (cs : Counters) (c : Code)
    (h0 : 0 ≤ cs.balance) (h3 : cs.balance ≤ 3) :
    onCont balInv (step cfg s cs c) := by
  cases s with
  | start =>
    simp only [step]; unfold start
    split_ifs
    · exact ⟨h0, h3⟩
    · trivial
  | afterStart =>
    simp only [step]; unfold afterStart
    split_ifs
    · trivial
    · rw [onCont_prependEvents]
      exact atBreak_balance cfg cs c h0 h3
  | atBreak => exact atBreak_balance cfg cs c h0 h3
  | label => exact label_balance cfg cs c h0 h3
  | labelEscape =>
    simp only [step]; unfold labelEscape
    split_ifs
    · exact ⟨h0, h3⟩
    · exact label_balance cfg cs c h0 h3

theorem step_cont_balance {cfg : LabelConfig} {s : LState} {cs : Counters} {c : Code}
    {s' : LState} {cs' : Counters} {evs : List Event}
    (h : step cfg s cs c = .cont s' cs' evs)
    (h0 : 0 ≤ cs.balance) (h3 : cs.balance ≤ 3) :
    0 ≤ cs'.balance ∧ cs'.balance ≤ 3 := by
  have hb := step_balance cfg s cs c h0 h3
  rw [h] at hb
  exact hb

theorem traceStates_balance {cfg : LabelConfig} :
    ∀ (input : List Code) (s : LState) (cs : Counters),
      0 ≤ cs.balance → cs.balance ≤ 3 →
      ∀ p ∈ traceStates cfg s cs input, 0 ≤ p.2.balance ∧ p.2.balance ≤ 3 := by
  intro input
  induction input with
  | nil =>
    intro s cs h0 h3 p hp
    simp [traceStates] at hp
    subst hp; exact ⟨h0, h3⟩
  | cons c rest ih =>
    intro s cs h0 h3 p hp
    simp only [traceStates, List.mem_cons] at hp
    rcases hp with hp | hp
    · subst hp; exact ⟨h0, h3⟩
    · rcases hstep : step cfg s cs c with ⟨s1, cs1, evs⟩ | _ | _ | _ <;> rw [hstep] at hp
      · obtain ⟨g0, g3⟩ := step_cont_balance hstep h0 h3
        exact ih _ _ g0 g3 p hp
      all_goals simp at hp

theorem resultSpans_prepend {cfg : LabelConfig} {st st' : List String}
    {pre : List Event} {r : StepResult}
    (hpre : checkSpans st pre = some st') (hr : resultSpans cfg st' r) :
    resultSpans cfg st (StepResult.prependEvents pre r) := by
  cases r with
  | cont s1 cs1 e1 =>
    simp only [resultSpans, StepResult.prependEvents] at hr ⊢
    rw [checkSpans_append, hpre]
    simpa using hr
  | ok cs1 e1 =>
    simp only [resultSpans, StepResult.prependEvents] at hr ⊢
    rw [checkSpans_append, hpre]
    simpa using hr
  | nok cs1 c1 e1 => trivial
  | err => trivial

theorem atClosingBrace_spans (cfg : LabelConfig) (cs : Counters) (c : Code) :
    resultSpans cfg (openStack cfg .atBreak) (atClosingBrace cfg cs c) := by
  simp [resultSpans, atClosingBrace, openStack, checkSpans]

theorem labelBody_spans (cfg : LabelConfig) (cs : Counters) (c : Code) :
    resultSpans cfg (openStack cfg .label) (labelBody cfg cs c) := by
  unfold labelBody
  split_ifs
  · trivial
  · simp [resultSpans, openStack, checkSpans]
  · refine resultSpans_prepend ?_ (atClosingBrace_spans cfg _ c)
    simp [openStack, checkSpans]
  · simp [resultSpans, openStack, checkSpans]
  · simp [resultSpans, openStack, checkSpans]
  · simp [resultSpans, openStack, checkSpans]

theorem atBreak_spans (cfg : LabelConfig) (cs : Counters) (c : Code) :
    resultSpans cfg (openStack cfg .atBreak) (atBreak cfg cs c) := by
  unfold atBreak
  split_ifs
  · trivial
  · exact atClosingBrace_spans cfg _ c
  · refine resultSpans_prepend ?_ (labelBody_spans cfg _ c)
    simp [openStack, checkSpans]
  · trivial
  · simp [resultSpans, openStack, checkSpans]
  · refine resultSpans_prepend ?_ (labelBody_spans cfg cs c)
    simp [openStack, checkSpans]

theorem label_spans (cfg : LabelConfig) (cs : Counters) (c : Code) :
    resultSpans cfg (openStack cfg .label) (label cfg cs c) := by
  unfold label
  split_ifs
  · refine resultSpans_prepend ?_ (atBreak_spans cfg cs c)
    simp [openStack, checkSpans]
  · exact labelBody_spans cfg cs c

theorem step_spans (cfg : LabelConfig) (s : LState) (cs : Counters) (c : Code) :
    resultSpans cfg (openStack cfg s) (step cfg s cs c) := by
  cases s with
  | start =>
    simp only [step]; unfold start
    split_ifs
    · simp [resultSpans, openStack, checkSpans]
    · trivial
  | afterStart =>
    simp only [step]; unfold afterStart
    split_ifs
    · simp [resultSpans, openStack, checkSpans]
    · refine resultSpans_prepend ?_ (atBreak_spans cfg cs c)
      simp [openStack, checkSpans]
  | atBreak => exact atBreak_spans cfg cs c
  | label => exact label_spans cfg cs c
  | labelEscape =>
    simp only [step]; unfold labelEscape
    split_ifs
    · simp [resultSpans, openStack, checkSpans]
    · exact label_spans cfg cs c

theorem run_ok_spans {cfg : LabelConfig} :
    ∀ (input : List Code) (s : LState) (cs : Counters) (acc : List Event)
      {cs' : Counters} {evs : List Event} {rest : List Code},
      run cfg s cs input acc = .ok cs' evs rest →
      checkSpans [] acc = some (openStack cfg s) →
      checkSpans [] evs = some [] := by
  intro input
  induction input with
  | nil =>
    intro s cs acc cs' evs rest h hacc
    simp [run] at h
  | cons c crest ih =>
    intro s cs acc cs' evs rest h hacc
    have hs := step_spans cfg s cs c
    rw [run] at h
    rcases hstep : step cfg s cs c with ⟨s1, cs1, e1⟩ | ⟨cs1, e1⟩ | _ | _ <;>
      rw [hstep] at h hs
    · refine ih _ _ _ h ?_
      rw [checkSpans_append, hacc]
      simpa using hs
    · injection h with a b c'
      subst b
      rw [checkSpans_append, hacc]
      simpa using hs
    · exact RunResult.noConfusion h
    · exact RunResult.noConfusion h

theorem nokSpans_prepend {cfg : LabelConfig} {st st' : List String}
    {pre : List Event} {r : StepResult}
    (hpre : checkSpans st pre = some st') (hr : nokSpans cfg st' r) :
    nokSpans cfg st (StepResult.prependEvents pre r) := by
  cases r with
  | nok cs1 c1 e1 =>
    simp only [nokSpans, StepResult.prependEvents] at hr ⊢
    rw [checkSpans_append, hpre]
    simpa using hr
  | cont s1 cs1 e1 => trivial
  | ok cs1 e1 => trivial
  | err => trivial

theorem labelBody_nokSpans (cfg : LabelConfig) (cs : Counters) (c : Code) :
    nokSpans cfg (openStack cfg .label) (labelBody cfg cs c) := by
  unfold labelBody
  split_ifs
  · exact Or.inr (by simp [openStack, checkSpans])
  · trivial
  · trivial
  · trivial
  · trivial
  · trivial

theorem atBreak_nokSpans (cfg : LabelConfig) (cs : Counters) (c : Code) :
    nokSpans cfg (openStack cfg .atBreak) (atBreak cfg cs c) := by
  unfold atBreak
  split_ifs
  · exact Or.inl (by simp [openStack, checkSpans])
  · trivial
  · refine nokSpans_prepend ?_ (labelBody_nokSpans cfg _ c)
    simp [openStack, checkSpans]
  · exact Or.inl (by simp [openStack, checkSpans])
  · trivial
  · refine nokSpans_prepend ?_ (labelBody_nokSpans cfg cs c)
    simp [openStack, checkSpans]

theorem label_nokSpans (cfg : LabelConfig) (cs : Counters) (c : Code) :
    nokSpans cfg (openStack cfg .label) (label cfg cs c) := by
  unfold label
  split_ifs
  · refine nokSpans_prepend ?_ (atBreak_nokSpans cfg cs c)
    simp [openStack, checkSpans]
  · exact labelBody_nokSpans cfg cs c

theorem step_nokSpans (cfg : LabelConfig) (s : LState) (cs : Counters) (c : Code) :
    nokSpans cfg (openStack cfg s) (step cfg s cs c) := by
  cases s with
  | start =>
    simp only [step]; unfold start
    split_ifs
    · trivial
    · trivial
  | afterStart =>
    simp only [step]; unfold afterStart
    split_ifs
    · trivial
    · refine nokSpans_prepend ?_ (atBreak_nokSpans cfg cs c)
      simp [openStack, checkSpans]
  | atBreak => exact atBreak_nokSpans cfg cs c
  | label => exact label_nokSpans cfg cs c
  | labelEscape =>
    simp only [step]; unfold labelEscape
    split_ifs
    · trivial
    · exact label_nokSpans cfg cs c

theorem run_nok_spans {cfg : LabelConfig} :
    ∀ (input : List Code) (s : LState) (cs : Counters) (acc : List Event)
      {cs' : Counters} {c' : Code} {evs : List Event},
      run cfg s cs input acc = .nok cs' c' evs →
      checkSpans [] acc = some (openStack cfg s) →
      checkSpans [] evs = some [cfg.stringType, cfg.type] ∨
        checkSpans [] evs = some ["chunkText", cfg.stringType, cfg.type] := by
  intro input
  induction input with
  | nil =>
    intro s cs acc cs' c' evs h hacc
    simp [run] at h
  | cons c crest ih =>
    intro s cs acc cs' c' evs h hacc
    have hs := step_spans cfg s cs c
    have hn := step_nokSpans cfg s cs c
    rw [run] at h
    rcases hstep : step cfg s cs c with ⟨s1, cs1, e1⟩ | ⟨cs1, e1⟩ | ⟨cs1, c1, e1⟩ | _ <;>
      rw [hstep] at h hs hn
    · refine ih _ _ _ h ?_
      rw [checkSpans_append, hacc]
      simpa using hs
    · exact RunResult.noConfusion h
    · injection h with a b c2
      subst c2
      simp only [nokSpans] at hn
      rw [checkSpans_append, hacc]
      simpa using hn
    · exact RunResult.noConfusion h

theorem onCont_mono {P Q : LState → Counters → Prop} (h : ∀ s cs, P s cs → Q s cs) :
    ∀ {r : StepResult}, onCont P r → onCont Q r := by
  intro r
  cases r with
  | cont s cs evs => exact h s cs
  | ok cs evs => exact fun _ => trivial
  | nok cs c evs => exact fun _ => trivial
  | err => exact fun _ => trivial

theorem labelBody_size (cfg : LabelConfig) (cs : Counters) (c : Code) :
    onCont (fun _ cs' => cs'.size = cs.size) (labelBody cfg cs c) := by
  unfold labelBody atClosingBrace
  split_ifs <;> simp [onCont, StepResult.prependEvents]

theorem atBreak_size (cfg : LabelConfig) (cs : Counters) (c : Code) :
    onCont (fun _ cs' => cs'.size = cs.size) (atBreak cfg cs c) := by
  unfold atBreak
  split_ifs
  · trivial
  · unfold atClosingBrace; trivial
  · rw [onCont_prependEvents]
    exact labelBody_size cfg _ c
  · trivial
  · rfl
  · rw [onCont_prependEvents]
    exact labelBody_size cfg cs c

theorem label_size (cfg : LabelConfig) (cs : Counters) (c : Code) :
    onCont (fun _ cs' => cs'.size = cs.size) (label cfg cs c) := by
  unfold label
  split_ifs
  · rw [onCont_prependEvents]
    exact atBreak_size cfg cs c
  · exact labelBody_size cfg cs c

theorem step_size (cfg : LabelConfig) (s : LState) (cs : Counters) (c : Code) :
    onCont (fun _ cs' =>
      cs'.size = cs.size ∨
        (s = .labelEscape ∧
          (c = Code.chr Codes.openingSquareBracket ∨ c = Code.chr Codes.backSlash ∨
            c = Code.chr Codes.closingSquareBracket) ∧
          cs'.size = cs.size + 1)) (step cfg s cs c) := by
  cases s with
  | start =>
    simp only [step]; unfold start
    split_ifs
    · exact Or.inl rfl
    · trivial
  | afterStart =>
    simp only [step]; unfold afterStart
    split_ifs
    · trivial
    · rw [onCont_prependEvents]
      exact onCont_mono (fun _ _ h => Or.inl h) (atBreak_size cfg cs c)
  | atBreak => exact onCont_mono (fun _ _ h => Or.inl h) (atBreak_size cfg cs c)
  | label => exact onCont_mono (fun _ _ h => Or.inl h) (label_size cfg cs c)
  | labelEscape =>
    simp only [step]; unfold labelEscape
    split_ifs with h1
    · exact Or.inr ⟨by simp, h1, by simp⟩
    · exact onCont_mono (fun _ _ h => Or.inl h) (label_size cfg cs c)

theorem label_size_exceeded (cfg : LabelConfig) (cs : Counters) (c : Code)
    (h : cs.size > 999) :
    label cfg cs c = .nok cs c [Event.exit "chunkText"] := by
  unfold label
  rw [if_pos (Or.inr (Or.inr h))]
  unfold atBreak
  rw [if_pos (Or.inr h)]
  rfl

theorem run_label_ordinary {cfg : LabelConfig} :
    ∀ (input : List Code), (∀ c ∈ input, Ordinary c) →
      ∀ (n : Nat) (b : Int) (acc : List Event), n ≤ 999 →
        run cfg .label ⟨n, b⟩ input acc =
          .pending .label ⟨n, b⟩ (acc ++ input.map Event.consume) := by
  intro input
  induction input with
  | nil => intro _ n b acc _; simp [run]
  | cons c rest ih =>
    intro hord n b acc hn
    obtain ⟨h1, h2, h3, h4, h5⟩ := hord c (List.mem_cons_self c rest)
    have hstep : step cfg .label ⟨n, b⟩ c = .cont .label ⟨n, b⟩ [Event.consume c] := by
      simp only [step]; unfold label
      rw [if_neg (by simp [h1, h2]; omega)]
      unfold labelBody
      rw [if_neg h3, if_neg h5, if_neg h4]
    rw [run, hstep]
    show run cfg .label ⟨n, b⟩ rest (acc ++ [Event.consume c]) =
      RunResult.pending .label ⟨n, b⟩ (acc ++ List.map Event.consume (c :: rest))
    rw [ih (fun c' hc' => hord c' (List.mem_cons_of_mem c hc')) n b _ hn]
    simp

/- ## Claim theorems -/

/-- C2: for every input sequence, the balance counter stays within `[0, 3]`
at every observation point between transitions of a single tokenizer
invocation — it is never negative and never exceeds 3 in any state the
machine waits in for the next unit (the transfer to the failure
continuation on a fourth nested open, like the transfer to the success
continuation, happens inside a terminal transition, after which no further
observation point exists). -/
theorem balance_bounded (cfg : LabelConfig) (input : List Code) (p : LState × Counters)
    (hp : p ∈ traceStates cfg .start ⟨0, 0⟩ input) :
    0 ≤ p.2.balance ∧ p.2.balance ≤ 3 :=
  traceStates_balance input .start ⟨0, 0⟩ (by decide) (by decide) p hp

/-- Witness for C2: the observation points of the run of `[a[` on `cfg0`
include `(label, ⟨0, 1⟩)`, and the bounds hold there. -/
theorem balance_bounded_witness :
    (LState.label, (⟨0, 1⟩ : Counters)) ∈
        traceStates cfg0 .start ⟨0, 0⟩ [Code.chr 91, Code.chr 97, Code.chr 91] ∧
      0 ≤ ((LState.label, (⟨0, 1⟩ : Counters)) : LState × Counters).2.balance ∧
      ((LState.label, (⟨0, 1⟩ : Counters)) : LState × Counters).2.balance ≤ 3 :=
  ⟨by decide,
   balance_bounded cfg0 [Code.chr 91, Code.chr 97, Code.chr 91] (LState.label, ⟨0, 1⟩)
     (by decide)⟩

/-- C3: the size counter is incremented only when an escape sequence is
consumed in `labelEscape` — every other continuing step leaves it
unchanged; once it exceeds 999, state `label` hands the next unit (even a
closing bracket) to `atBreak`, which transfers to the failure
continuation; and a run of arbitrarily many ordinary (non-escaped) content
units in state `label` continues scanning with the size counter
unchanged, so it is never failed by the size check. -/
theorem size_counts_escapes_only (cfg : LabelConfig) :
    (∀ (s : LState) (cs : Counters) (c : Code) (s' : LState) (cs' : Counters)
        (evs : List Event),
        step cfg s cs c = .cont s' cs' evs →
        cs'.size = cs.size ∨
          (s = .labelEscape ∧
            (c = Code.chr Codes.openingSquareBracket ∨ c = Code.chr Codes.backSlash ∨
              c = Code.chr Codes.closingSquareBracket) ∧
            cs'.size = cs.size + 1)) ∧
    (∀ (cs : Counters) (c : Code), cs.size > 999 →
        step cfg .label cs c = .nok cs c [Event.exit "chunkText"]) ∧
    (∀ (input : List Code), (∀ c ∈ input, Ordinary c) →
        ∀ (n : Nat) (b : Int) (acc : List Event), n ≤ 999 →
          run cfg .label ⟨n, b⟩ input acc =
            .pending .label ⟨n, b⟩ (acc ++ input.map Event.consume)) := by
  refine ⟨?_, ?_, ?_⟩
  · intro s cs c s' cs' evs h
    have hs := step_size cfg s cs c
    rw [h] at hs
    exact hs
  · intro cs c h
    exact label_size_exceeded cfg cs c h
  · exact run_label_ordinary

/-- Witness for C3: with the size counter at 1000, state `label` rejects
even a closing bracket; and the ordinary units `a`, `b` are scanned from
`label` without touching the counters. -/
theorem size_counts_escapes_only_witness :
    step cfg0 .label ⟨1000, 0⟩ (Code.chr 93) =
        .nok ⟨1000, 0⟩ (Code.chr 93) [Event.exit "chunkText"] ∧
      run cfg0 .label ⟨5, 0⟩ [Code.chr 97, Code.chr 98] [] =
        .pending .label ⟨5, 0⟩ [Event.consume (Code.chr 97), Event.consume (Code.chr 98)] :=
  ⟨(size_counts_escapes_only cfg0).2.1 ⟨1000, 0⟩ (Code.chr 93) (by decide),
   (size_counts_escapes_only cfg0).2.2 [Code.chr 97, Code.chr 98] (by decide) 5 0 []
     (by decide)⟩

/-- C4: every input on which the tokenizer reaches the success
continuation has a balanced, strictly nested enter/exit event sequence:
checking the emitted events against an empty span stack closes every
opened span exactly once and ends with the stack empty. -/
theorem createLabel_ok_balanced (cfg : LabelConfig) (input : List Code) (cs : Counters)
    (evs : List Event) (rest : List Code)
    (h : createLabel cfg input = .ok cs evs rest) :
    checkSpans [] evs = some [] :=
  run_ok_spans input .start ⟨0, 0⟩ [] h (by simp [checkSpans, openStack])

/-- Witness for C4: the successful run of `[a]` emits a balanced,
strictly nested event sequence. -/
theorem createLabel_ok_balanced_witness :
    createLabel cfg0 [Code.chr 91, Code.chr 97, Code.chr 93] =
        .ok ⟨0, -1⟩
          [Event.enter "label", Event.enter "labelMarker", Event.consume (Code.chr 91),
           Event.exit "labelMarker", Event.enter "labelString", Event.enter "chunkText",
           Event.consume (Code.chr 97), Event.exit "chunkText", Event.exit "labelString",
           Event.enter "labelMarker", Event.consume (Code.chr 93), Event.exit "labelMarker",
           Event.exit "label"] [] ∧
      checkSpans []
          [Event.enter "label", Event.enter "labelMarker", Event.consume (Code.chr 91),
           Event.exit "labelMarker", Event.enter "labelString", Event.enter "chunkText",
           Event.consume (Code.chr 97), Event.exit "chunkText", Event.exit "labelString",
           Event.enter "labelMarker", Event.consume (Code.chr 93), Event.exit "labelMarker",
           Event.exit "label"] = some [] :=
  ⟨by decide,
   createLabel_ok_balanced cfg0 [Code.chr 91, Code.chr 97, Code.chr 93] ⟨0, -1⟩ _ []
     (by decide)⟩

/-- C7: the empty label is accepted — in `afterStart`, a closing bracket
makes the tokenizer emit `enter(markerType)` / `consume` /
`exit(markerType)` and `exit(type)` and reach the success continuation;
on `[]` the whole run succeeds with exactly the two marker spans inside
the label span, and no `enter(stringType)` event is ever emitted. -/
theorem empty_label_accepted (cfg : LabelConfig) :
    (∀ cs : Counters,
        step cfg .afterStart cs (Code.chr Codes.closingSquareBracket) =
          .ok cs
            [Event.enter cfg.markerType, Event.consume (Code.chr Codes.closingSquareBracket),
             Event.exit cfg.markerType, Event.exit cfg.type]) ∧
    createLabel cfg0 [Code.chr 91, Code.chr 93] =
      .ok ⟨0, 0⟩
        [Event.enter "label", Event.enter "labelMarker", Event.consume (Code.chr 91),
         Event.exit "labelMarker", Event.enter "labelMarker", Event.consume (Code.chr 93),
         Event.exit "labelMarker", Event.exit "label"] [] ∧
    Event.enter cfg0.stringType ∉
      [Event.enter "label", Event.enter "labelMarker", Event.consume (Code.chr 91),
       Event.exit "labelMarker", Event.enter "labelMarker", Event.consume (Code.chr 93),
       Event.exit "labelMarker", Event.exit "label"] := by
  refine ⟨?_, by decide, by decide⟩
  intro cs
  simp only [step]; unfold afterStart
  rw [if_pos rfl]

/-- C9: end of input before a closing bracket terminates the label makes
every mid-label state transfer to the failure continuation, passing it the
end-of-input unit unconsumed (the `nok` outcome carries `eof` and no
`consume eof` event is emitted); on `[abc` followed by end of input the
whole run fails this way. -/
theorem eof_fails_unterminated (cfg : LabelConfig) :
    (∀ cs : Counters,
        step cfg .afterStart cs Code.eof = .nok cs Code.eof [Event.enter cfg.stringType]) ∧
    (∀ cs : Counters, step cfg .atBreak cs Code.eof = .nok cs Code.eof []) ∧
    (∀ cs : Counters,
        step cfg .label cs Code.eof = .nok cs Code.eof [Event.exit "chunkText"]) ∧
    (∀ cs : Counters,
        step cfg .labelEscape cs Code.eof = .nok cs Code.eof [Event.exit "chunkText"]) ∧
    createLabel cfg0 [Code.chr 91, Code.chr 97, Code.chr 98, Code.chr 99, Code.eof] =
      .nok ⟨0, 0⟩ Code.eof
        [Event.enter "label", Event.enter "labelMarker", Event.consume (Code.chr 91),
         Event.exit "labelMarker", Event.enter "labelString", Event.enter "chunkText",
         Event.consume (Code.chr 97), Event.consume (Code.chr 98), Event.consume (Code.chr 99),
         Event.exit "chunkText"] := by
  refine ⟨?_, ?_, ?_, ?_, by decide⟩
  · intro cs
    simp only [step]; unfold afterStart
    rw [if_neg (by simp)]
    unfold atBreak
    rw [if_pos (Or.inl rfl)]
    rfl
  · intro cs
    simp only [step]; unfold atBreak
    rw [if_pos (Or.inl rfl)]
  · intro cs
    simp only [step]; unfold label
    rw [if_pos (Or.inl rfl)]
    unfold atBreak
    rw [if_pos (Or.inl rfl)]
    rfl
  · intro cs
    simp only [step]; unfold labelEscape
    rw [if_neg (by simp)]
    unfold label
    rw [if_pos (Or.inl rfl)]
    unfold atBreak
    rw [if_pos (Or.inl rfl)]
    rfl

/-- C10: for EVERY input on which the tokenizer reaches the failure
continuation, the event stream emitted up to that call is unbalanced:
checking it against an empty stack leaves the content-string and label
spans open — and, when the failure strikes inside an open text chunk
(e.g. the depth-overflow path), the text-chunk span as well.  In
particular the enter events for the label span and the content-string
span have no matching exits: failure neither closes nor rolls back spans
opened before the failing unit. -/
theorem createLabel_nok_spans_open (cfg : LabelConfig) (input : List Code)
    (cs : Counters) (c : Code) (evs : List Event)
    (h : createLabel cfg input = .nok cs c evs) :
    checkSpans [] evs = some [cfg.stringType, cfg.type] ∨
      checkSpans [] evs = some ["chunkText", cfg.stringType, cfg.type] :=
  run_nok_spans input .start ⟨0, 0⟩ [] h (by simp [checkSpans, openStack])

/-- Witness for C10: the failing runs of `[a` + end of input (label and
content-string spans left open; the text chunk was closed by the
hand-off) and of the depth-overflow input `[a[b[c[d[` (text-chunk span
left open as well). -/
theorem createLabel_nok_spans_open_witness :
    (createLabel cfg0 [Code.chr 91, Code.chr 97, Code.eof] =
        .nok ⟨0, 0⟩ Code.eof
          [Event.enter "label", Event.enter "labelMarker", Event.consume (Code.chr 91),
           Event.exit "labelMarker", Event.enter "labelString", Event.enter "chunkText",
           Event.consume (Code.chr 97), Event.exit "chunkText"] ∧
      (checkSpans []
            [Event.enter "label", Event.enter "labelMarker", Event.consume (Code.chr 91),
             Event.exit "labelMarker", Event.enter "labelString", Event.enter "chunkText",
             Event.consume (Code.chr 97), Event.exit "chunkText"] =
          some ["labelString", "label"] ∨
        checkSpans []
            [Event.enter "label", Event.enter "labelMarker", Event.consume (Code.chr 91),
             Event.exit "labelMarker", Event.enter "labelString", Event.enter "chunkText",
             Event.consume (Code.chr 97), Event.exit "chunkText"] =
          some ["chunkText", "labelString", "label"])) ∧
    (createLabel cfg0 [Code.chr 91, Code.chr 97, Code.chr 91, Code.chr 98, Code.chr 91,
          Code.chr 99, Code.chr 91, Code.chr 100, Code.chr 91] =
        .nok ⟨0, 4⟩ (Code.chr 91)
          [Event.enter "label", Event.enter "labelMarker", Event.consume (Code.chr 91),
           Event.exit "labelMarker", Event.enter "labelString", Event.enter "chunkText",
           Event.consume (Code.chr 97), Event.consume (Code.chr 91), Event.consume (Code.chr 98),
           Event.consume (Code.chr 91), Event.consume (Code.chr 99), Event.consume (Code.chr 91),
           Event.consume (Code.chr 100)] ∧
      (checkSpans []
            [Event.enter "label", Event.enter "labelMarker", Event.consume (Code.chr 91),
             Event.exit "labelMarker", Event.enter "labelString", Event.enter "chunkText",
             Event.consume (Code.chr 97), Event.consume (Code.chr 91), Event.consume (Code.chr 98),
             Event.consume (Code.chr 91), Event.consume (Code.chr 99), Event.consume (Code.chr 91),
             Event.consume (Code.chr 100)] =
          some ["labelString", "label"] ∨
        checkSpans []
            [Event.enter "label", Event.enter "labelMarker", Event.consume (Code.chr 91),
             Event.exit "labelMarker", Event.enter "labelString", Event.enter "chunkText",
             Event.consume (Code.chr 97), Event.consume (Code.chr 91), Event.consume (Code.chr 98),
             Event.consume (Code.chr 91), Event.consume (Code.chr 99), Event.consume (Code.chr 91),
             Event.consume (Code.chr 100)] =
          some ["chunkText", "labelString", "label"])) :=
  ⟨⟨by decide,
    createLabel_nok_spans_open cfg0 [Code.chr 91, Code.chr 97, Code.eof] ⟨0, 0⟩ Code.eof _
      (by decide)⟩,
   ⟨by decide,
    createLabel_nok_spans_open cfg0
      [Code.chr 91, Code.chr 97, Code.chr 91, Code.chr 98, Code.chr 91, Code.chr 99,
       Code.chr 91, Code.chr 100, Code.chr 91] ⟨0, 4⟩ (Code.chr 91) _ (by decide)⟩⟩

/-- C1 (counterexample): on the claim's own example — `[a[`, a line
ending, then `]b]]`, with `disallowEol = false` — the closing bracket
seen at `atBreak` with balance 1 is NOT treated as ordinary label
content: the run transfers to `atClosingBrace` and reaches the success
continuation right there, leaving `b]]` unconsumed; the step from
`atBreak` with balance 1 on `]` is a terminal `ok`, not a continuing
consume. -/
theorem atBreak_nonzero_close_cex :
    createLabel cfg0 [Code.chr 91, Code.chr 97, Code.chr 91, Code.chr (-4),
        Code.chr 93, Code.chr 98, Code.chr 93, Code.chr 93] =
      .ok ⟨0, -1⟩
        [Event.enter "label", Event.enter "labelMarker", Event.consume (Code.chr 91),
         Event.exit "labelMarker", Event.enter "labelString", Event.enter "chunkText",
         Event.consume (Code.chr 97), Event.consume (Code.chr 91), Event.exit "chunkText",
         Event.enter "lineEnding", Event.consume (Code.chr (-4)), Event.exit "lineEnding",
         Event.enter "chunkText", Event.exit "chunkText", Event.exit "labelString",
         Event.enter "labelMarker", Event.consume (Code.chr 93), Event.exit "labelMarker",
         Event.exit "label"]
        [Code.chr 98, Code.chr 93, Code.chr 93] ∧
    step cfg0 .atBreak ⟨0, 1⟩ (Code.chr 93) =
      .ok ⟨0, -1⟩
        [Event.enter "chunkText", Event.exit "chunkText", Event.exit "labelString",
         Event.enter "labelMarker", Event.consume (Code.chr 93), Event.exit "labelMarker",
         Event.exit "label"] := ⟨by decide, by decide⟩

/-- C1 (amended): in state `atBreak`, a closing bracket with nonzero
balance is decremented once by `atBreak`'s own `!balance--` test and then
falls into `label`, which tests the already-decremented counter again: if
the balance was exactly 1 the bracket terminates the label via
`atClosingBrace` (after an empty text-chunk span), and if it was at least
2 it is decremented a second time — a net decrement of two — and consumed
as ordinary content. -/
theorem atBreak_nonzero_close_amended (cfg : LabelConfig) (n : Nat) (b : Int)
    (hn : n ≤ 999) (hb : 1 ≤ b) :
    step cfg .atBreak ⟨n, b⟩ (Code.chr Codes.closingSquareBracket) =
      if b = 1 then
        .ok ⟨n, -1⟩
          [Event.enter "chunkText", Event.exit "chunkText", Event.exit cfg.stringType,
           Event.enter cfg.markerType, Event.consume (Code.chr Codes.closingSquareBracket),
           Event.exit cfg.markerType, Event.exit cfg.type]
      else
        .cont .label ⟨n, b - 2⟩
          [Event.enter "chunkText", Event.consume (Code.chr Codes.closingSquareBracket)] := by
  simp only [step]
  unfold atBreak
  rw [if_neg (by simp; omega), if_pos rfl, if_neg (by simp; omega)]
  unfold labelBody
  simp only [Counters.size_mk, Counters.balance_mk]
  rw [if_neg (by simp [Codes.openingSquareBracket, Codes.closingSquareBracket])]
  simp only [if_true]
  by_cases hb1 : b = 1
  · subst hb1
    norm_num
    unfold atClosingBrace
    simp [StepResult.prependEvents]
  · rw [if_neg (by omega), if_neg hb1]
    have h2 : b - 1 - 1 = b - 2 := by omega
    simp [StepResult.prependEvents, h2]

/-- Witness for the amended C1: at `atBreak` with balance 2, the closing
bracket is consumed as content with the balance decremented twice. -/
theorem atBreak_nonzero_close_amended_witness :
    step cfg0 .atBreak ⟨0, 2⟩ (Code.chr Codes.closingSquareBracket) =
      .cont .label ⟨0, 0⟩
        [Event.enter "chunkText", Event.consume (Code.chr Codes.closingSquareBracket)] := by
  have h := atBreak_nonzero_close_amended cfg0 0 2 (by norm_num) (by norm_num)
  rw [if_neg (by norm_num)] at h
  norm_num at h
  exact h

/-- C5 (counterexample): input `[a[b[c[d]]]]` — the outer bracket plus
three nested opening brackets — reaches the SUCCESS continuation (its
nested depth peaks at balance 3, which does not exceed the limit), not
the failure continuation as the claim states. -/
theorem depth_four_total_brackets_cex :
    createLabel cfg0 [Code.chr 91, Code.chr 97, Code.chr 91, Code.chr 98, Code.chr 91,
        Code.chr 99, Code.chr 91, Code.chr 100, Code.chr 93, Code.chr 93, Code.chr 93,
        Code.chr 93] =
      .ok ⟨0, -1⟩
        [Event.enter "label", Event.enter "labelMarker", Event.consume (Code.chr 91),
         Event.exit "labelMarker", Event.enter "labelString", Event.enter "chunkText",
         Event.consume (Code.chr 97), Event.consume (Code.chr 91), Event.consume (Code.chr 98),
         Event.consume (Code.chr 91), Event.consume (Code.chr 99), Event.consume (Code.chr 91),
         Event.consume (Code.chr 100), Event.consume (Code.chr 93), Event.consume (Code.chr 93),
         Event.consume (Code.chr 93), Event.exit "chunkText", Event.exit "labelString",
         Event.enter "labelMarker", Event.consume (Code.chr 93), Event.exit "labelMarker",
         Event.exit "label"] [] := by decide

/-- C5 (amended): an opening bracket consumed as label content
pre-increments the balance counter and the parse transfers to the failure
continuation exactly when the incremented counter exceeds 3, i.e. on the
fourth nested opening bracket: `[a[b[c[d]]]]` (three nested opens, depth
3 of nesting inside the outer label) succeeds, while `[a[b[c[d[e]]]]]`
(four nested opens) fails at the fourth nested `[`. -/
theorem depth_limit_amended (cfg : LabelConfig) (n : Nat) (b : Int) (hn : n ≤ 999) :
    (step cfg .label ⟨n, b⟩ (Code.chr Codes.openingSquareBracket) =
        if b + 1 > 3 then
          .nok ⟨n, b + 1⟩ (Code.chr Codes.openingSquareBracket) []
        else
          .cont .label ⟨n, b + 1⟩ [Event.consume (Code.chr Codes.openingSquareBracket)]) ∧
    createLabel cfg0 [Code.chr 91, Code.chr 97, Code.chr 91, Code.chr 98, Code.chr 91,
        Code.chr 99, Code.chr 91, Code.chr 100, Code.chr 93, Code.chr 93, Code.chr 93,
        Code.chr 93] =
      .ok ⟨0, -1⟩
        [Event.enter "label", Event.enter "labelMarker", Event.consume (Code.chr 91),
         Event.exit "labelMarker", Event.enter "labelString", Event.enter "chunkText",
         Event.consume (Code.chr 97), Event.consume (Code.chr 91), Event.consume (Code.chr 98),
         Event.consume (Code.chr 91), Event.consume (Code.chr 99), Event.consume (Code.chr 91),
         Event.consume (Code.chr 100), Event.consume (Code.chr 93), Event.consume (Code.chr 93),
         Event.consume (Code.chr 93), Event.exit "chunkText", Event.exit "labelString",
         Event.enter "labelMarker", Event.consume (Code.chr 93), Event.exit "labelMarker",
         Event.exit "label"] [] ∧
    createLabel cfg0 [Code.chr 91, Code.chr 97, Code.chr 91, Code.chr 98, Code.chr 91,
        Code.chr 99, Code.chr 91, Code.chr 100, Code.chr 91, Code.chr 101, Code.chr 93,
        Code.chr 93, Code.chr 93, Code.chr 93, Code.chr 93] =
      .nok ⟨0, 4⟩ (Code.chr 91)
        [Event.enter "label", Event.enter "labelMarker", Event.consume (Code.chr 91),
         Event.exit "labelMarker", Event.enter "labelString", Event.enter "chunkText",
         Event.consume (Code.chr 97), Event.consume (Code.chr 91), Event.consume (Code.chr 98),
         Event.consume (Code.chr 91), Event.consume (Code.chr 99), Event.consume (Code.chr 91),
         Event.consume (Code.chr 100)] := by
  refine ⟨?_, by decide, by decide⟩
  simp only [step]
  unfold label
  rw [if_neg (by simp [markdownLineEnding, Codes.openingSquareBracket]; omega)]
  unfold labelBody
  simp only [Counters.size_mk, Counters.balance_mk]
  simp only [if_true]

/-- Witness for the amended C5: in state `label` at balance 3, a fourth
nested opening bracket transfers to the failure continuation with the
counter pre-incremented to 4. -/
theorem depth_limit_amended_witness :
    step cfg0 .label ⟨0, 3⟩ (Code.chr Codes.openingSquareBracket) =
      .nok ⟨0, 4⟩ (Code.chr Codes.openingSquareBracket) [] := by
  have h := (depth_limit_amended cfg0 0 3 (by norm_num)).1
  rw [if_pos (by norm_num)] at h
  norm_num at h
  exact h

/-- C6: after a backslash was consumed in `label`, state `labelEscape`
consumes an opening bracket, backslash or closing bracket as content and
increments the size counter exactly once; any other unit leaves the
backslash literal and is re-evaluated by exactly one `label` step (the
`labelEscape` step IS the `label` step on that unit).  Concretely,
`[a\]b]` succeeds with the escaped `]` inside the single text chunk
`a\]b` and `size = 1`, and `[a\b]` succeeds with content `a\b`. -/
theorem labelEscape_behavior (cfg : LabelConfig) :
    (∀ (cs : Counters) (c : Code),
        (c = Code.chr Codes.openingSquareBracket ∨ c = Code.chr Codes.backSlash ∨
          c = Code.chr Codes.closingSquareBracket) →
        step cfg .labelEscape cs c =
          .cont .label ⟨cs.size + 1, cs.balance⟩ [Event.consume c]) ∧
    (∀ (cs : Counters) (c : Code),
        ¬(c = Code.chr Codes.openingSquareBracket ∨ c = Code.chr Codes.backSlash ∨
          c = Code.chr Codes.closingSquareBracket) →
        step cfg .labelEscape cs c = step cfg .label cs c) ∧
    createLabel cfg0 [Code.chr 91, Code.chr 97, Code.chr 92, Code.chr 93, Code.chr 98,
        Code.chr 93] =
      .ok ⟨1, -1⟩
        [Event.enter "label", Event.enter "labelMarker", Event.consume (Code.chr 91),
         Event.exit "labelMarker", Event.enter "labelString", Event.enter "chunkText",
         Event.consume (Code.chr 97), Event.consume (Code.chr 92), Event.consume (Code.chr 93),
         Event.consume (Code.chr 98), Event.exit "chunkText", Event.exit "labelString",
         Event.enter "labelMarker", Event.consume (Code.chr 93), Event.exit "labelMarker",
         Event.exit "label"] [] ∧
    createLabel cfg0 [Code.chr 91, Code.chr 97, Code.chr 92, Code.chr 98, Code.chr 93] =
      .ok ⟨0, -1⟩
        [Event.enter "label", Event.enter "labelMarker", Event.consume (Code.chr 91),
         Event.exit "labelMarker", Event.enter "labelString", Event.enter "chunkText",
         Event.consume (Code.chr 97), Event.consume (Code.chr 92), Event.consume (Code.chr 98),
         Event.exit "chunkText", Event.exit "labelString", Event.enter "labelMarker",
         Event.consume (Code.chr 93), Event.exit "labelMarker", Event.exit "label"] [] := by
  refine ⟨?_, ?_, by decide, by decide⟩
  · intro cs c h
    simp only [step]
    unfold labelEscape
    rw [if_pos h]
  · intro cs c h
    simp only [step]
    unfold labelEscape
    rw [if_neg h]

/-- Witness for C6: in `labelEscape`, the closing bracket is consumed as
escaped content with the size counter incremented once. -/
theorem labelEscape_behavior_witness :
    step cfg0 .labelEscape ⟨0, 0⟩ (Code.chr 93) =
      .cont .label ⟨1, 0⟩ [Event.consume (Code.chr 93)] :=
  (labelEscape_behavior cfg0).1 ⟨0, 0⟩ (Code.chr 93) (by decide)

/-- C8: the line-ending policy is governed by `disallowEol`: with the
flag set, a line-ending unit at `atBreak` (or handed off from `label`)
transfers to the failure continuation at that unit; with the flag clear,
the same unit is consumed inside an `enter('lineEnding')` /
`exit('lineEnding')` span pair and scanning resumes at `atBreak`.
Concretely, `[a`, line feed, `b]` fails at the line feed when
`disallowEol = true` and succeeds with a line-ending span there when
`disallowEol = false`. -/
theorem lineEnding_policy (cfg : LabelConfig) (cs : Counters) (c : Code)
    (hle : markdownLineEnding c = true) (hs : cs.size ≤ 999) :
    (cfg.disallowEol = true →
        step cfg .atBreak cs c = .nok cs c [] ∧
        step cfg .label cs c = .nok cs c [Event.exit "chunkText"]) ∧
    (cfg.disallowEol = false →
        step cfg .atBreak cs c =
          .cont .atBreak cs
            [Event.enter "lineEnding", Event.consume c, Event.exit "lineEnding"] ∧
        step cfg .label cs c =
          .cont .atBreak cs
            [Event.exit "chunkText", Event.enter "lineEnding", Event.consume c,
             Event.exit "lineEnding"]) ∧
    createLabel cfg1 [Code.chr 91, Code.chr 97, Code.chr (-4), Code.chr 98, Code.chr 93] =
      .nok ⟨0, 0⟩ (Code.chr (-4))
        [Event.enter "label", Event.enter "labelMarker", Event.consume (Code.chr 91),
         Event.exit "labelMarker", Event.enter "labelString", Event.enter "chunkText",
         Event.consume (Code.chr 97), Event.exit "chunkText"] ∧
    createLabel cfg0 [Code.chr 91, Code.chr 97, Code.chr (-4), Code.chr 98, Code.chr 93] =
      .ok ⟨0, -1⟩
        [Event.enter "label", Event.enter "labelMarker", Event.consume (Code.chr 91),
         Event.exit "labelMarker", Event.enter "labelString", Event.enter "chunkText",
         Event.consume (Code.chr 97), Event.exit "chunkText", Event.enter "lineEnding",
         Event.consume (Code.chr (-4)), Event.exit "lineEnding", Event.enter "chunkText",
         Event.consume (Code.chr 98), Event.exit "chunkText", Event.exit "labelString",
         Event.enter "labelMarker", Event.consume (Code.chr 93), Event.exit "labelMarker",
         Event.exit "label"] [] := by
  cases c with
  | eof => simp [markdownLineEnding] at hle
  | chr m =>
    have hm : m < -2 := by simpa [markdownLineEnding] using hle
    have hab : atBreak cfg cs (Code.chr m) =
        if cfg.disallowEol then .nok cs (Code.chr m) []
        else
          .cont .atBreak cs
            [Event.enter "lineEnding", Event.consume (Code.chr m),
             Event.exit "lineEnding"] := by
      unfold atBreak
      rw [if_neg (by simp; omega), if_neg (by simp [Codes.closingSquareBracket]; omega),
        if_pos hle]
    have hlab : label cfg cs (Code.chr m) =
        StepResult.prependEvents [Event.exit "chunkText"] (atBreak cfg cs (Code.chr m)) := by
      unfold label
      rw [if_pos (Or.inr (Or.inl hle))]
    refine ⟨?_, ?_, by decide, by decide⟩
    · intro hd
      refine ⟨?_, ?_⟩
      · show atBreak cfg cs (Code.chr m) = _
        rw [hab, if_pos hd]
      · show label cfg cs (Code.chr m) = _
        rw [hlab, hab, if_pos hd]
        rfl
    · intro hd
      refine ⟨?_, ?_⟩
      · show atBreak cfg cs (Code.chr m) = _
        rw [hab, if_neg (by simp [hd])]
      · show label cfg cs (Code.chr m) = _
        rw [hlab, hab, if_neg (by simp [hd])]
        rfl

/-- Witness for C8: the line feed at `atBreak` fails under `cfg1`
(`disallowEol = true`) and is consumed inside a line-ending span under
`cfg0` (`disallowEol = false`). -/
theorem lineEnding_policy_witness :
    step cfg1 .atBreak ⟨0, 0⟩ (Code.chr (-4)) = .nok ⟨0, 0⟩ (Code.chr (-4)) [] ∧
      step cfg0 .atBreak ⟨0, 0⟩ (Code.chr (-4)) =
        .cont .atBreak ⟨0, 0⟩
          [Event.enter "lineEnding", Event.consume (Code.chr (-4)),
           Event.exit "lineEnding"] :=
  ⟨((lineEnding_policy cfg1 ⟨0, 0⟩ (Code.chr (-4)) (by decide) (by decide)).1 rfl).1,
   ((lineEnding_policy cfg0 ⟨0, 0⟩ (Code.chr (-4)) (by decide) (by decide)).2.1 rfl).1⟩

end FactoryLabel
